import Mathlib

/-!
Formal model of the core of the `curve` game (an Achtung-die-Kurve clone).

The program's `f32` coordinates, durations and timestamps are modelled as
rationals (all times in milliseconds).  Trigonometric functions, the frame
clock, keyboard input and the random number generator are external
collaborators; they enter the model as explicit parameters (an `Env` of
abstract `cos`/`sin` functions, a `now` timestamp, per-curve key states and
fuse values), so every definition is executable.

Definitions are translated from `src/game/src/kurve.rs`,
`src/game/src/kurve/point.rs`, `src/src/kurve/powerup.rs` and
`src/src/kurve/curve.rs`.  The files `src/game/src/kurve/curve.rs` and
`src/game/src/kurve/powerup.rs` are referenced by `src/game/src/kurve.rs`
(`mod curve; mod powerup;`) but are not part of the snapshot; the `Curve`
and `PowerMod` records used by the game tick are reconstructed from their
uses in `src/game/src/kurve.rs`, from the sibling variant files under
`src/src/kurve/`, and from the specification (§3, §4.2, §4.4).
-/

/-- A point, mirroring `mint::Point2<f32>` with rational coordinates. -/
structure Point2 where
  x : ℚ
  y : ℚ
deriving DecidableEq, Repr

/-- Rust's `f32::round`: round half away from zero. -/
def roundf (q : ℚ) : ℚ :=
  if 0 ≤ q then ((⌊q + 1/2⌋ : ℤ) : ℚ) else ((-⌊-q + 1/2⌋ : ℤ) : ℚ)

/-- The six thickness levels, `src/game/src/kurve/point.rs`. -/
inductive Girth where
  | Tiny
  | Small
  | Normal
  | Large
  | Larger
  | Chungus
deriving DecidableEq, Repr

/-- `Girth::min`. -/
def Girth.min : Girth := .Tiny

/-- `Girth::max`. -/
def Girth.max : Girth := .Chungus

/-- `Girth::as_f32`: the bounding radius of each level. -/
def Girth.as_f32 : Girth → ℚ
  | .Tiny => 1
  | .Small => 3/2
  | .Normal => 2
  | .Large => 4
  | .Larger => 6
  | .Chungus => 8

/-- `Girth::increment`: saturating step towards `Chungus`. -/
def Girth.increment : Girth → Girth
  | .Tiny => .Small
  | .Small => .Normal
  | .Normal => .Large
  | .Large => .Larger
  | .Larger => .Chungus
  | .Chungus => .Chungus

/-- `Girth::decrement`: saturating step towards `Tiny`. -/
def Girth.decrement : Girth → Girth
  | .Tiny => .Tiny
  | .Small => .Tiny
  | .Normal => .Small
  | .Large => .Normal
  | .Larger => .Large
  | .Chungus => .Larger

/-- Position of a level in the declaration order (the order used by the
derived `PartialOrd` on the Rust enum). -/
def Girth.idx : Girth → Nat
  | .Tiny => 0
  | .Small => 1
  | .Normal => 2
  | .Large => 3
  | .Larger => 4
  | .Chungus => 5

/-- The derived `PartialOrd` comparison `a < b` on `Girth`. -/
def Girth.lt (a b : Girth) : Bool := a.idx < b.idx

/-- A trail segment: interpolated points tagged with the girth active at
creation time, `src/game/src/kurve/point.rs`. -/
structure Line where
  points : List Point2
  girth : Girth
deriving DecidableEq, Repr

/-- `Line::interpolate`: walk from `origin` to `target` in unit steps along
the dominant axis (the `while i < max` loop runs `⌈max⌉` times), rounding
each sample. -/
def Line.interpolate (origin target : Point2) (girth : Girth) : Line :=
  let d_x := target.x - origin.x
  let d_y := target.y - origin.y
  let m := Max.max (Max.max |d_x| |d_y|) 1
  { points :=
      (List.range ⌈m⌉₊).map fun i =>
        ⟨roundf (origin.x + i * (d_x / m)), roundf (origin.y + i * (d_y / m))⟩,
    girth := girth }

/-- `BoundingBox::new`: the 9 rounded sample points (center plus the square
ring at `distance`), in source order, `src/game/src/kurve/point.rs`. -/
def BoundingBox.new (p : Point2) (distance : ℚ) : List Point2 :=
  [ ⟨roundf p.x, roundf p.y⟩,
    ⟨roundf (p.x - distance), roundf (p.y - distance)⟩,
    ⟨roundf p.x, roundf (p.y - distance)⟩,
    ⟨roundf (p.x + distance), roundf (p.y - distance)⟩,
    ⟨roundf (p.x + distance), roundf p.y⟩,
    ⟨roundf (p.x + distance), roundf (p.y + distance)⟩,
    ⟨roundf p.x, roundf (p.y + distance)⟩,
    ⟨roundf (p.x - distance), roundf (p.y + distance)⟩,
    ⟨roundf (p.x - distance), roundf p.y⟩ ]

/-- Abstract trigonometry: stands for `f32::cos` / `f32::sin`. -/
structure Env where
  cos : ℚ → ℚ
  sin : ℚ → ℚ

/-- Constants from `src/game/src/kurve.rs` (durations in milliseconds). -/
def DEFAULT_VELOCITY : ℚ := 60

/-- `TRAIL_SKIP_MIN`, milliseconds. -/
def TRAIL_SKIP_MIN : ℚ := 2000

/-- `TRAIL_SKIP_MAX`, milliseconds. -/
def TRAIL_SKIP_MAX : ℚ := 4000

/-- `INV_DURATION`: invulnerability window after a trail gap starts. -/
def INV_DURATION : ℚ := 300

/-- `POWERMOD_DURATION`: lifetime of an active power-up effect. -/
def POWERMOD_DURATION : ℚ := 30000

/-- `POWERMOD_SIZE`. -/
def POWERMOD_SIZE : ℚ := 16

/-- `Duration::MAX` in milliseconds (`u64::MAX` seconds plus `10^9 - 1`
nanoseconds). -/
def DURATION_MAX : ℚ := (2 ^ 64 - 1) * 1000 + 999999999 / 1000000

/-- The curve entity of the game variant.  The defining file
`src/game/src/kurve/curve.rs` is absent from the snapshot; fields are
reconstructed from their uses in `src/game/src/kurve.rs` and
`src/src/kurve/powerup.rs`, and from spec §3 (rendering-only fields `mesh`,
`color` and the key bindings are omitted). -/
structure Curve where
  player_id : Nat
  position : Point2
  rotation : ℚ
  velocity : ℚ
  rotation_speed : ℚ
  girth : Girth
  trail_ts : ℚ
  trail_fuse : ℚ
  trail_active : Bool
  lines : List Line
  alive : Bool
deriving DecidableEq, Repr

/-- `Curve::next_pos`: candidate position one tick ahead
(`src/src/kurve/curve.rs`, identical formula in both variants). -/
def Curve.next_pos (c : Curve) (env : Env) (delta : ℚ) : Point2 :=
  ⟨c.position.x + c.velocity * delta * env.cos c.rotation,
   c.position.y + c.velocity * delta * env.sin c.rotation⟩

/-- `Curve::mv`: commit the move using the same formula. -/
def Curve.mv (c : Curve) (env : Env) (delta : ℚ) : Curve :=
  { c with position :=
      ⟨c.position.x + c.velocity * delta * env.cos c.rotation,
       c.position.y + c.velocity * delta * env.sin c.rotation⟩ }

/-- `Curve::rotate`: held-key rotation; `cw`/`ccw` are the key states this
tick (`src/src/kurve/curve.rs`). -/
def Curve.rotate (c : Curve) (cw ccw : Bool) : Curve :=
  let c := if cw then { c with rotation := c.rotation + c.rotation_speed } else c
  if ccw then { c with rotation := c.rotation - c.rotation_speed } else c

/-- `Curve::tick_trail` of the game variant (file absent; reconstructed from
`src/src/kurve/curve.rs` `tick_trail` with the game variant's field names
`trail_fuse`, girth-tagged `Line`, and `Curve::new_trail_fuse()` replaced by
the abstract freshly rolled fuse `fuse`): toggle the trail off once the fuse
has elapsed, re-enable it after the invulnerability window, and append one
interpolated segment while active. -/
def Curve.tick_trail (c : Curve) (env : Env) (now fuse delta : ℚ) : Curve :=
  let c := if now - c.trail_ts > c.trail_fuse then
    { c with trail_active := false, trail_ts := now } else c
  let c := if now - c.trail_ts > INV_DURATION ∧ c.trail_active = false then
    { c with trail_active := true, trail_fuse := fuse, trail_ts := now } else c
  if c.trail_active then
    { c with lines := c.lines ++ [Line.interpolate c.position (c.next_pos env delta) c.girth] }
  else c

/-- All power-up kinds, `src/src/kurve/powerup.rs`. -/
inductive PowerModifier where
  | SpeedUp
  | RotUp
  | Invulnerability
  | Anorexia
  | SpeedDown
  | RotDown
  | Chungus
deriving DecidableEq, Repr

/-- `ROTUP` constant of `src/src/kurve/powerup.rs`. -/
def ROTUP : ℚ := 1/100

/-- `VELO` constant of `src/src/kurve/powerup.rs`. -/
def VELO : ℚ := 10

/-- `PowerModifier::apply` (`src/src/kurve/powerup.rs`); `now` stands for
`Instant::now()`. -/
def PowerModifier.apply (pm : PowerModifier) (now : ℚ) (c : Curve) : Curve :=
  match pm with
  | .SpeedUp => { c with velocity := c.velocity + VELO }
  | .RotUp => { c with rotation_speed := c.rotation_speed + ROTUP }
  | .Invulnerability =>
      { c with trail_active := false, trail_ts := now, trail_fuse := DURATION_MAX }
  | .SpeedDown => { c with velocity := c.velocity - VELO }
  | .RotDown => { c with rotation_speed := c.rotation_speed - ROTUP }
  | .Anorexia =>
      if Girth.lt Girth.min c.girth then { c with girth := c.girth.decrement } else c
  | .Chungus =>
      if Girth.lt c.girth Girth.max then { c with girth := c.girth.increment } else c

/-- `PowerModifier::remove` (`src/src/kurve/powerup.rs`); `fuse` stands for
the freshly rolled `Curve::new_trail_fuse()`. -/
def PowerModifier.remove (pm : PowerModifier) (now fuse : ℚ) (c : Curve) : Curve :=
  match pm with
  | .SpeedUp => if c.velocity > VELO then { c with velocity := c.velocity - VELO } else c
  | .RotUp => { c with rotation_speed := c.rotation_speed - ROTUP }
  | .Invulnerability =>
      { c with trail_active := true, trail_ts := now, trail_fuse := fuse }
  | .Anorexia => { c with girth := c.girth.increment }
  | .SpeedDown => { c with velocity := c.velocity + VELO }
  | .RotDown => { c with rotation_speed := c.rotation_speed + ROTUP }
  | .Chungus => { c with girth := c.girth.decrement }

/-- A spawned pickup of the game variant (`src/game/src/kurve/powerup.rs` is
absent; fields reconstructed from `src/game/src/kurve.rs`, which reads
`powermod.point`, `powermod.ty`, `powermod.bounds()` and `powermod.bbox`,
and from `src/src/kurve/powerup.rs`).  The `bbox` point set is data here. -/
structure PowerMod where
  point : Point2
  ty : PowerModifier
  bbox : List Point2
deriving DecidableEq, Repr

/-- An active power-up effect, `src/src/kurve/powerup.rs` (`started` in
milliseconds). -/
structure PowerTimeout where
  curve : Nat
  started : ℚ
  ty : PowerModifier
deriving DecidableEq, Repr

/-- Arena rectangle, `src/game/src/kurve.rs`. -/
structure ArenaBounds where
  x_min : ℚ
  x_max : ℚ
  y_min : ℚ
  y_max : ℚ
deriving DecidableEq, Repr

/-- `check_border_collision` (`src/game/src/kurve.rs`): some sample point is
strictly outside the rectangle on some axis. -/
def check_border_collision (x_min x_max y_min y_max : ℚ) (bbox : List Point2) : Bool :=
  bbox.any fun point =>
    decide (point.x < x_min) || decide (point.x > x_max) ||
    decide (point.y < y_min) || decide (point.y > y_max)

/-- `check_bbox_colision` (`src/game/src/kurve.rs`): each trail point is
re-expanded by the line's own girth minus one, and equality of rounded
coordinates is tested against the 9 query points. -/
def check_bbox_colision (bbox : List Point2) (line : Line) : Bool :=
  line.points.any fun point =>
    let point_bbox := BoundingBox.new point (line.girth.as_f32 - 1)
    point_bbox.any fun line_point =>
      bbox.any fun curve_point =>
        decide (line_point.x = curve_point.x) && decide (line_point.y = curve_point.y)

/-- The trail check of `Kurve::tick_running` for one curve `j` against the
query box of curve `i` (`self_check` is `i == j`): when scanning the
curve's own trail, the most recent
`15 * ((girth.as_f32() as usize).saturating_sub(1))` segments are skipped
via the `take_while` on the enumerated segment index. -/
def trailHit (bbox : List Point2) (self_check : Bool) (cJ : Curve) : Bool :=
  let line_count :=
    if self_check then
      cJ.lines.length - 15 * (Int.toNat ⌊cJ.girth.as_f32⌋ - 1)
    else cJ.lines.length
  ((cJ.lines.enum.takeWhile fun p => decide (p.1 < line_count)).any
    fun p => check_bbox_colision bbox p.2)

/-- One iteration of the read-only collision scan of `Kurve::tick_running`:
whether curve `i` ends this tick with its collision bit set.  A curve with
an inactive trail is skipped entirely (`if !curve.trail_active continue`);
otherwise the border check runs first, and only if it passes is every
curve's trail scanned. -/
def curve_collides (env : Env) (bounds : ArenaBounds) (curves : List Curve)
    (delta : ℚ) (i : Nat) (curve : Curve) : Bool :=
  let bbox := BoundingBox.new (curve.next_pos env delta) curve.girth.as_f32
  if curve.trail_active = false then false
  else if check_border_collision bounds.x_min bounds.x_max bounds.y_min bounds.y_max bbox then
    true
  else
    curves.enum.any fun jc => trailHit bbox (i == jc.1) jc.2

/-- Accumulation of the per-tick collision bit-set
(`collisions |= 1 << i`), iterating the curves from index `n`. -/
def collision_bits_go (env : Env) (bounds : ArenaBounds) (allCurves : List Curve)
    (delta : ℚ) : Nat → List Curve → Nat
  | _, [] => 0
  | n, c :: rest =>
      (if curve_collides env bounds allCurves delta n c then 1 <<< n else 0) |||
        collision_bits_go env bounds allCurves delta (n + 1) rest

/-- The complete per-tick collision bit-set of `Kurve::tick_running`. -/
def collision_bits (env : Env) (bounds : ArenaBounds) (delta : ℚ)
    (curves : List Curve) : Nat :=
  collision_bits_go env bounds curves delta 0 curves

/-- Pickup detection for one curve box against one spawned pickup
(`src/game/src/kurve.rs`, the `'curve_bbox` loop): first the square bounds
`center ± POWERMOD_SIZE/2`, then exact equality against the pickup's own
`bbox` points.  At most one `(curve, pickup)` record results per pair. -/
def powermodHit (bbox : List Point2) (pm : PowerMod) : Bool :=
  let b0 := pm.point.x - POWERMOD_SIZE * (1/2)
  let b1 := pm.point.x + POWERMOD_SIZE * (1/2)
  let b2 := pm.point.y - POWERMOD_SIZE * (1/2)
  let b3 := pm.point.y + POWERMOD_SIZE * (1/2)
  bbox.any fun curve_p =>
    (decide (curve_p.x ≥ b0) && decide (curve_p.x ≤ b1) &&
     decide (curve_p.y ≥ b2) && decide (curve_p.y ≤ b3)) ||
    pm.bbox.any fun point =>
      decide (point.x = curve_p.x) && decide (point.y = curve_p.y)

/-- The `apply_power_mods` list collected during the scan: curve index,
pickup id and pickup kind, in scan order (curves outer, pickups inner). -/
def detect_powermods_go (env : Env) (delta : ℚ) (powermods : List (Nat × PowerMod)) :
    Nat → List Curve → List (Nat × Nat × PowerModifier)
  | _, [] => []
  | i, c :: rest =>
      let bbox := BoundingBox.new (c.next_pos env delta) c.girth.as_f32
      ((powermods.filter fun e => powermodHit bbox e.2).map fun e => (i, e.1, e.2.ty)) ++
        detect_powermods_go env delta powermods (i + 1) rest

/-- All `(curve, pickup id, kind)` records of one tick's scan. -/
def detect_powermods (env : Env) (delta : ℚ) (powermods : List (Nat × PowerMod))
    (curves : List Curve) : List (Nat × Nat × PowerModifier) :=
  detect_powermods_go env delta powermods 0 curves

/-- In-place update of the curve at index `i` (Rust `&mut self.curves[i]`). -/
def list_update (f : Curve → Curve) : Nat → List Curve → List Curve
  | _, [] => []
  | 0, c :: rest => f c :: rest
  | n + 1, c :: rest => c :: list_update f n rest

/-- The timeout expiry pass of `Kurve::tick_running`
(`power_timeouts.retain`): expired timeouts apply their kind's `remove` to
the owning curve and are dropped; the rest are kept in order. -/
def expire_timeouts (now : ℚ) (fuse : Nat → ℚ) (curves : List Curve) :
    List PowerTimeout → List Curve × List PowerTimeout
  | [] => (curves, [])
  | t :: rest =>
      if now - t.started ≥ POWERMOD_DURATION then
        expire_timeouts now fuse (list_update (t.ty.remove now (fuse t.curve)) t.curve curves) rest
      else
        let r := expire_timeouts now fuse curves rest
        (r.1, t :: r.2)

/-- Game-state snapshot threaded through a `Running` tick: the curves, the
spawned pickups (the `HashMap` as an association list) and the active
timeouts. -/
structure GameState where
  curves : List Curve
  powermods : List (Nat × PowerMod)
  power_timeouts : List PowerTimeout
deriving Repr

/-- The `Apply powermods` loop of `Kurve::tick_running`: apply the kind to
the collecting curve, remove the pickup from the spawned map, and push one
timeout per record. -/
def apply_powermods (now : ℚ) : List (Nat × Nat × PowerModifier) → GameState → GameState
  | [], st => st
  | d :: rest, st =>
      apply_powermods now rest
        { curves := list_update (d.2.2.apply now) d.1 st.curves,
          powermods := st.powermods.filter fun e => e.1 != d.2.1,
          power_timeouts := st.power_timeouts ++ [⟨d.1, now, d.2.2⟩] }

/-- The `Apply collisions` loop of `Kurve::tick_running`, iterating from
index `n`: dead curves are skipped, and a curve is stopped and killed when
`collisions >> i == 1`. -/
def apply_collisions_go (collisions : Nat) : Nat → List Curve → List Curve
  | _, [] => []
  | n, c :: rest =>
      (if c.alive = false then c
       else if collisions >>> n = 1 then { c with velocity := 0, alive := false }
       else c) :: apply_collisions_go collisions (n + 1) rest

/-- The `Apply collisions` loop over the whole curve list. -/
def apply_collisions (collisions : Nat) (curves : List Curve) : List Curve :=
  apply_collisions_go collisions 0 curves

/-- The loop body of `Kurve::check_winner`, with the running `winner` and
`alive` accumulators; the `break` on `alive > 1` ends the scan. -/
def check_winner_go (winner : Option Nat) (alive : Nat) : List Curve → Option Nat
  | [] => winner
  | c :: rest =>
      let winner := if c.alive = true ∧ alive < 1 then some c.player_id else winner
      let alive := if c.alive then alive + 1 else alive
      if alive > 1 then none else check_winner_go winner alive rest

/-- `Kurve::check_winner`. -/
def check_winner (curves : List Curve) : Option Nat :=
  check_winner_go none 0 curves

/-- Per-tick external inputs: abstract trigonometry, the frame delta (in
seconds, as in `ctx.time.delta().as_secs_f32()`), the tick's `Instant::now()`
in milliseconds, the freshly rolled trail fuse per curve index, and the
held rotation keys per curve index. -/
structure TickCtx where
  env : Env
  delta : ℚ
  now : ℚ
  fuse : Nat → ℚ
  cw : Nat → Bool
  ccw : Nat → Bool

/-- The `Process movement` loop of `Kurve::tick_running`, iterating from
index `n`: rotate, tick the trail, then commit the move. -/
def movement_go (tc : TickCtx) : Nat → List Curve → List Curve
  | _, [] => []
  | n, c :: rest =>
      (((c.rotate (tc.cw n) (tc.ccw n)).tick_trail tc.env tc.now (tc.fuse n) tc.delta).mv
          tc.env tc.delta) :: movement_go tc (n + 1) rest

/-- `Kurve::tick_running` on a `GameState`: the read-only collision and
pickup scan, timeout expiry, pickup application, collision application,
winner check (returning early, before movement, when a winner exists) and
the movement loop.  Power-up spawning (`PowerSupply::tick_powermods`) only
inserts fresh pickups driven by the clock and RNG; the spawned set is an
input here and spawning is not modelled. -/
def tick_running (tc : TickCtx) (bounds : ArenaBounds) (st : GameState) :
    GameState × Option Nat :=
  let collisions := collision_bits tc.env bounds tc.delta st.curves
  let detected := detect_powermods tc.env tc.delta st.powermods st.curves
  let expired := expire_timeouts tc.now tc.fuse st.curves st.power_timeouts
  let st1 := apply_powermods tc.now detected
    { curves := expired.1, powermods := st.powermods, power_timeouts := expired.2 }
  let curves2 := apply_collisions collisions st1.curves
  match check_winner curves2 with
  | some w => ({ st1 with curves := curves2 }, some w)
  | none => ({ st1 with curves := movement_go tc 0 curves2 }, none)

/-- Iterated `Running` ticks with per-tick external inputs. -/
def tick_running_iter (bounds : ArenaBounds) (tcs : List TickCtx) (st : GameState) :
    GameState :=
  tcs.foldl (fun s tc => (tick_running tc bounds s).1) st

namespace v0

/-- A trail segment of the `src/src` variant (`src/src/kurve/point.rs`):
interpolated points only, no girth tag. -/
structure Line where
  points : List Point2
deriving DecidableEq, Repr

/-- `Line::interpolate` of `src/src/kurve/point.rs` (same walk as the game
variant, without the girth tag). -/
def Line.interpolate (origin target : Point2) : Line :=
  let d_x := target.x - origin.x
  let d_y := target.y - origin.y
  let m := Max.max (Max.max |d_x| |d_y|) 1
  { points :=
      (List.range ⌈m⌉₊).map fun i =>
        ⟨roundf (origin.x + i * (d_x / m)), roundf (origin.y + i * (d_y / m))⟩ }

/-- The curve entity of `src/src/kurve/curve.rs` (girth is a plain `f32`
multiplier there, the trail fuse is named `trail_countdown`; rendering and
key-binding fields omitted). -/
structure Curve where
  player_id : Nat
  position : Point2
  rotation : ℚ
  velocity : ℚ
  rotation_speed : ℚ
  girth : ℚ
  trail_countdown : ℚ
  trail_ts : ℚ
  trail_active : Bool
  lines : List Line
  alive : Bool
deriving DecidableEq, Repr

/-- `Curve::next_pos` of `src/src/kurve/curve.rs`. -/
def Curve.next_pos (c : Curve) (env : Env) (delta : ℚ) : Point2 :=
  ⟨c.position.x + c.velocity * delta * env.cos c.rotation,
   c.position.y + c.velocity * delta * env.sin c.rotation⟩

/-- `Curve::tick_trail` of `src/src/kurve/curve.rs`: disable the trail once
the countdown has elapsed, re-enable it (rolling the fresh countdown `fuse`)
once the invulnerability window has elapsed, then append one interpolated
segment when the trail is active. -/
def Curve.tick_trail (c : Curve) (env : Env) (now fuse delta : ℚ) : Curve :=
  let c := if now - c.trail_ts > c.trail_countdown then
    { c with trail_active := false, trail_ts := now } else c
  let c := if now - c.trail_ts > INV_DURATION ∧ c.trail_active = false then
    { c with trail_active := true, trail_countdown := fuse, trail_ts := now } else c
  if c.trail_active then
    { c with lines := c.lines ++ [Line.interpolate c.position (c.next_pos env delta)] }
  else c

end v0

/-! Concrete fixtures used by the closed evaluation theorems below.  The
abstract trigonometry is instantiated with the constant functions
`cos = 1`, `sin = 0` (a curve heading along the positive x-axis). -/

/-- Concrete environment: heading along the positive x-axis. -/
def env0 : Env := ⟨fun _ => 1, fun _ => 0⟩

/-- Concrete tick inputs: one-second delta, tick at time 0, no keys held. -/
def tc1 : TickCtx :=
  { env := env0, delta := 1, now := 0, fuse := fun _ => 2500,
    cw := fun _ => false, ccw := fun _ => false }

/-- A 100 by 100 arena. -/
def bounds1 : ArenaBounds := ⟨0, 100, 0, 100⟩

/-- A live curve far beyond the right arena wall. -/
def c1a : Curve :=
  { player_id := 0, position := ⟨200, 50⟩, rotation := 0, velocity := 60,
    rotation_speed := 1/100, girth := .Normal, trail_ts := 0,
    trail_fuse := 1000000, trail_active := true, lines := [], alive := true }

/-- A second live curve, also beyond the right arena wall. -/
def c1b : Curve := { c1a with player_id := 1, position := ⟨300, 50⟩ }

/-- Two out-of-bounds curves, no pickups, no timeouts. -/
def st1 : GameState := ⟨[c1a, c1b], [], []⟩

/-- A default-like curve used for the power-up round-trip statements. -/
def cW : Curve :=
  { player_id := 0, position := ⟨10, 10⟩, rotation := 0, velocity := 60,
    rotation_speed := 1/100, girth := .Normal, trail_ts := 0,
    trail_fuse := 3000, trail_active := true, lines := [], alive := true }

/-- The round-trip curve at maximal girth. -/
def cChg : Curve := { cW with girth := .Chungus }

/-- A one-point trail segment sitting exactly on the curve position. -/
def line3 : Line := ⟨[⟨50, 50⟩], .Larger⟩

/-- A stationary `Larger` curve whose whole 61-segment trail matches its own
query box. -/
def c3 : Curve :=
  { player_id := 0, position := ⟨50, 50⟩, rotation := 0, velocity := 0,
    rotation_speed := 0, girth := .Larger, trail_ts := 0,
    trail_fuse := 1000000, trail_active := true,
    lines := List.replicate 61 line3, alive := true }

/-- The query box of `c3` for a one-second tick. -/
def bbox3 : List Point2 := BoundingBox.new (c3.next_pos env0 1) c3.girth.as_f32

/-- An out-of-bounds curve whose trail is inactive (invulnerable). -/
def cI : Curve := { cW with position := ⟨200, 50⟩, trail_active := false }

/-- The invulnerable curve alone in the arena. -/
def stI : GameState := ⟨[cI], [], []⟩

/-- A spawned `Chungus` pickup at (50, 50). -/
def pm9 : PowerMod := ⟨⟨50, 50⟩, .Chungus, []⟩

/-- A stationary curve sitting on the pickup. -/
def c9a : Curve :=
  { player_id := 0, position := ⟨50, 50⟩, rotation := 0, velocity := 0,
    rotation_speed := 0, girth := .Normal, trail_ts := 0,
    trail_fuse := 1000000, trail_active := true, lines := [], alive := true }

/-- A second stationary curve on the same pickup. -/
def c9b : Curve := { c9a with player_id := 1 }

/-- A 1000 by 1000 arena. -/
def bounds9 : ArenaBounds := ⟨0, 1000, 0, 1000⟩

/-- Two curves on one pickup. -/
def st9 : GameState := ⟨[c9a, c9b], [(0, pm9)], []⟩

/-- An `src/src`-variant curve in a trail gap (`trail_active = false`). -/
def c8 : v0.Curve :=
  { player_id := 0, position := ⟨5, 5⟩, rotation := 0, velocity := 0,
    rotation_speed := 0, girth := 2, trail_countdown := 2000, trail_ts := 0,
    trail_active := false, lines := [], alive := true }

/-- The same `src/src`-variant curve with its trail active. -/
def c8b : v0.Curve := { c8 with trail_active := true }

/-- An eliminated curve: dead, stopped. -/
def cD : Curve :=
  { player_id := 0, position := ⟨5, 5⟩, rotation := 0, velocity := 0,
    rotation_speed := 1/100, girth := .Normal, trail_ts := 0,
    trail_fuse := 3000, trail_active := true, lines := [], alive := false }

/-- The dead curve alone, no pickups or timeouts in flight. -/
def stD : GameState := ⟨[cD], [], []⟩

/-- The position, velocity and alive flag of a curve — the fields tracked by
the dead-curve claim. -/
def pva (c : Curve) : Point2 × ℚ × Bool := (c.position, c.velocity, c.alive)

/-- The reachable-state premise for the dead-curve claim: curve `k` is
eliminated (dead and stopped) at position `p`, and every spawned pickup and
pending timeout carries the `Chungus` kind — the only kind the spawner's
`POWERMODS` table contains in `src/game/src/kurve.rs`. -/
def good_state (k : Nat) (p : Point2) (st : GameState) : Prop :=
  ((st.curves.get? k).map pva) = some (p, 0, false) ∧
  (∀ e ∈ st.powermods, e.2.ty = PowerModifier.Chungus) ∧
  (∀ t ∈ st.power_timeouts, t.ty = PowerModifier.Chungus)

/-- The velocity, rotation speed, girth and trail-active flag of a curve —
the mutable fields the power-up round-trip claim tracks (the trail
timestamp and trail fuse are deliberately excluded: `Invulnerability`
resets them to fresh values rather than restoring them). -/
def vrgt (c : Curve) : ℚ × ℚ × Girth × Bool :=
  (c.velocity, c.rotation_speed, c.girth, c.trail_active)

/-- C7: Girth increment and decrement saturate at the ends of the six-level
enumeration with no wraparound: incrementing `Chungus` yields `Chungus`,
decrementing `Tiny` yields `Tiny`, and any number of repeated increments
(resp. decrements) stays at the end level. -/
theorem girth_saturation :
    Girth.increment Girth.max = Girth.max ∧
    Girth.decrement Girth.min = Girth.min ∧
    (∀ n : Nat, Girth.increment^[n] Girth.max = Girth.max) ∧
    (∀ n : Nat, Girth.decrement^[n] Girth.min = Girth.min) := by
  refine ⟨rfl, rfl, ?_, ?_⟩ <;> intro n <;> induction n with
  | zero => rfl
  | succ n ih =>
      rw [Function.iterate_succ_apply', ih]
      rfl

/-- The `check_winner` loop starting from a recorded sole survivor: the
survivor is reported exactly when no further living curve appears. -/
theorem check_winner_go_one (p : Nat) (cs : List Curve) :
    check_winner_go (some p) 1 cs =
      if cs.all (fun c => !c.alive) then some p else none := by
  induction cs with
  | nil => rfl
  | cons c rest ih =>
      by_cases h : c.alive <;>
        simp [check_winner_go, h, ih]

/-- The `check_winner` loop from its initial accumulators, characterized by
the list of living curves. -/
theorem check_winner_go_zero (cs : List Curve) :
    check_winner_go none 0 cs =
      (match cs.filter (fun c => c.alive) with
       | [c] => some c.player_id
       | _ => none) := by
  induction cs with
  | nil => rfl
  | cons c rest ih =>
      by_cases h : c.alive
      · rcases hr : rest.filter (fun c => c.alive) with _ | ⟨d, ds⟩
        · have hall : rest.all (fun c => !c.alive) = true := by
            simp only [List.all_eq_true, Bool.not_eq_true']
            intro x hx
            by_contra hcontra
            have hmem : x ∈ rest.filter (fun c => c.alive) :=
              List.mem_filter.mpr ⟨hx, by simpa using hcontra⟩
            simp [hr] at hmem
          simp [check_winner_go, h, check_winner_go_one, hall, hr]
        · have hall : rest.all (fun c => !c.alive) = false := by
            have hmem : d ∈ rest.filter (fun c => c.alive) := by
              rw [hr]; exact List.mem_cons_self d ds
            have hd := List.mem_filter.mp hmem
            simp only [List.all_eq_false]
            exact ⟨d, hd.1, by simpa using hd.2⟩
          simp [check_winner_go, h, check_winner_go_one, hall, hr]
      · simp [check_winner_go, h, ih]

/-- C5: the winner check returns the owning player index of the single
living curve when exactly one curve is alive, and returns no winner when
zero or at least two curves are alive (the filter of living curves is a
singleton exactly in the first case). -/
theorem check_winner_spec (curves : List Curve) :
    check_winner curves =
      (match curves.filter (fun c => c.alive) with
       | [c] => some c.player_id
       | _ => none) :=
  check_winner_go_zero curves

/-- C6 (amended): the border check reports a collision if and only if at
least one of the 9 sample points lies strictly outside the arena rectangle
on some axis; a point exactly on a boundary value therefore does not
trigger a collision.  (The claim's parenthetical — that such a curve is
eliminated that tick — fails; see the accompanying counterexample.) -/
theorem check_border_collision_iff (x_min x_max y_min y_max : ℚ) (bbox : List Point2) :
    check_border_collision x_min x_max y_min y_max bbox = true ↔
      ∃ p ∈ bbox, p.x < x_min ∨ x_max < p.x ∨ p.y < y_min ∨ y_max < p.y := by
  simp [check_border_collision, List.any_eq_true, or_assoc]

unseal Rat.add Rat.mul Rat.sub Rat.inv in
/-- C6 counterexample: curve 0's query box fails the border check, yet the
tick does not eliminate curve 0 (another curve with a higher index also
collides this tick, and the bit-set application of `tick_running` only acts
on the highest set bit). -/
theorem border_collision_without_elimination :
    check_border_collision bounds1.x_min bounds1.x_max bounds1.y_min bounds1.y_max
      (BoundingBox.new (c1a.next_pos tc1.env tc1.delta) c1a.girth.as_f32) = true ∧
    (((tick_running tc1 bounds1 st1).1.curves.get? 0).map fun c => c.alive) = some true := by
  decide

unseal Rat.add Rat.mul Rat.sub Rat.inv in
/-- C2 (amended): applying a power-up kind and then reversing it restores
velocity, rotation speed, girth and the trail-active flag, with each kind
conditioned only on its own proviso: `SpeedDown`, `RotUp` and `RotDown`
round-trip unconditionally; `SpeedUp` provided the velocity was positive
beforehand; `Anorexia` provided the girth was above `Tiny`; `Chungus`
provided the girth was below `Chungus`; `Invulnerability` provided the
trail was active beforehand.  The trail timestamp and trail fuse touched by
`Invulnerability` are reset to fresh values by `remove`, not restored. -/
theorem powermod_apply_remove_roundtrip (c : Curve) (now1 now2 fuse : ℚ) :
    vrgt (PowerModifier.SpeedDown.remove now2 fuse
      (PowerModifier.SpeedDown.apply now1 c)) = vrgt c ∧
    vrgt (PowerModifier.RotUp.remove now2 fuse
      (PowerModifier.RotUp.apply now1 c)) = vrgt c ∧
    vrgt (PowerModifier.RotDown.remove now2 fuse
      (PowerModifier.RotDown.apply now1 c)) = vrgt c ∧
    (0 < c.velocity →
      vrgt (PowerModifier.SpeedUp.remove now2 fuse
        (PowerModifier.SpeedUp.apply now1 c)) = vrgt c) ∧
    (Girth.lt Girth.min c.girth = true →
      vrgt (PowerModifier.Anorexia.remove now2 fuse
        (PowerModifier.Anorexia.apply now1 c)) = vrgt c) ∧
    (Girth.lt c.girth Girth.max = true →
      vrgt (PowerModifier.Chungus.remove now2 fuse
        (PowerModifier.Chungus.apply now1 c)) = vrgt c) ∧
    (c.trail_active = true →
      vrgt (PowerModifier.Invulnerability.remove now2 fuse
        (PowerModifier.Invulnerability.apply now1 c)) = vrgt c) := by
  refine ⟨?_, ?_, ?_, ?_, ?_, ?_, ?_⟩
  · simp [PowerModifier.apply, PowerModifier.remove, vrgt]
  · simp [PowerModifier.apply, PowerModifier.remove, vrgt]
  · simp [PowerModifier.apply, PowerModifier.remove, vrgt]
  · intro hv
    have h : c.velocity + VELO > VELO := by
      unfold VELO; linarith
    simp [PowerModifier.apply, PowerModifier.remove, vrgt, h]
  · intro hmin
    cases hg : c.girth <;>
      simp_all [PowerModifier.apply, PowerModifier.remove, vrgt, Girth.lt, Girth.idx,
        Girth.min, Girth.max, Girth.increment, Girth.decrement]
  · intro hmax
    cases hg : c.girth <;>
      simp_all [PowerModifier.apply, PowerModifier.remove, vrgt, Girth.lt, Girth.idx,
        Girth.min, Girth.max, Girth.increment, Girth.decrement]
  · intro ht
    simp [PowerModifier.apply, PowerModifier.remove, vrgt, ht]

unseal Rat.add Rat.mul Rat.sub Rat.inv in
/-- C2 witness: at a default-like curve every proviso holds, and the round
trip restores the tracked fields there for the unconditional `SpeedDown`
and for the guarded `SpeedUp`, `Anorexia`, `Chungus` and `Invulnerability`
kinds, each hypothesis discharged at the concrete input. -/
theorem powermod_apply_remove_roundtrip_witness :
    (0 < cW.velocity ∧ Girth.lt Girth.min cW.girth = true ∧
      Girth.lt cW.girth Girth.max = true ∧ cW.trail_active = true) ∧
    vrgt (PowerModifier.SpeedDown.remove 5 2500
      (PowerModifier.SpeedDown.apply 1 cW)) = vrgt cW ∧
    vrgt (PowerModifier.SpeedUp.remove 5 2500
      (PowerModifier.SpeedUp.apply 1 cW)) = vrgt cW ∧
    vrgt (PowerModifier.Anorexia.remove 5 2500
      (PowerModifier.Anorexia.apply 1 cW)) = vrgt cW ∧
    vrgt (PowerModifier.Chungus.remove 5 2500
      (PowerModifier.Chungus.apply 1 cW)) = vrgt cW ∧
    vrgt (PowerModifier.Invulnerability.remove 5 2500
      (PowerModifier.Invulnerability.apply 1 cW)) = vrgt cW := by
  have h := powermod_apply_remove_roundtrip cW 1 5 2500
  exact ⟨⟨by decide, by decide, by decide, by decide⟩, h.1,
    h.2.2.2.1 (by decide), h.2.2.2.2.1 (by decide),
    h.2.2.2.2.2.1 (by decide), h.2.2.2.2.2.2 (by decide)⟩

/-- C2 counterexample: at maximal girth the claim fails — `Chungus.apply`
saturates (no change) but `Chungus.remove` still decrements, so the round
trip drops the girth from `Chungus` to `Larger` instead of restoring it. -/
theorem chungus_roundtrip_drift_at_max_girth :
    cChg.girth = Girth.Chungus ∧
    (PowerModifier.Chungus.remove 0 2500 (PowerModifier.Chungus.apply 0 cChg)).girth
      = Girth.Larger := by
  decide

/-- C8 (amended): `tick_trail` appends exactly one interpolated segment on a
tick if and only if `trail_active` is true after the tick's toggle
processing (equivalently, at the end of the tick) — not at the start of the
tick: a tick that re-enables the trail after the invulnerability window
appends a segment although the flag was false at tick start, and a tick
whose fuse expires appends none although the flag was true at tick start. -/
theorem tick_trail_append_iff_end_active (c : v0.Curve) (env : Env) (now fuse delta : ℚ) :
    (c.tick_trail env now fuse delta).lines =
      (if (c.tick_trail env now fuse delta).trail_active = true then
        c.lines ++ [v0.Line.interpolate c.position (c.next_pos env delta)]
      else c.lines) := by
  simp only [v0.Curve.tick_trail]
  by_cases h1 : now - c.trail_ts > c.trail_countdown
  · have h2 : ¬(INV_DURATION < (0:ℚ)) := by norm_num [INV_DURATION]
    simp [h1, h2]
  · by_cases h2 : now - c.trail_ts > INV_DURATION ∧ c.trail_active = false
    · simp [h1, h2, v0.Curve.next_pos]
    · by_cases hA : c.trail_active
      · simp [h1, h2, hA]
      · have h2A : ¬(INV_DURATION < now - c.trail_ts) := fun hlt =>
          h2 ⟨hlt, by simpa using hA⟩
        simp [h1, h2A, hA]

unseal Rat.add Rat.mul Rat.sub Rat.inv in
/-- C8 counterexample: in a trail gap past the invulnerability window, a
segment is appended although `trail_active` was false at the start of the
tick; conversely, on the tick the fuse expires no segment is appended
although `trail_active` was true at the start of the tick. -/
theorem trail_appended_despite_inactive_start :
    (c8.trail_active = false ∧
      (c8.tick_trail env0 1000 2500 1).lines.length = c8.lines.length + 1 ∧
      (c8.tick_trail env0 1000 2500 1).trail_active = true) ∧
    (c8b.trail_active = true ∧
      (c8b.tick_trail env0 3000 2500 1).lines.length = c8b.lines.length ∧
      (c8b.tick_trail env0 3000 2500 1).trail_active = false) := by
  decide

unseal Rat.add Rat.mul Rat.sub Rat.inv in
/-- C1: two curves both cross the border in the same tick, so both collision
bits are set (bit-set 3); the claim (and spec §4.3/§8) requires both curves
to be eliminated, but the application loop tests `collisions >> i == 1`
instead of the i-th bit, so only the highest-indexed colliding curve is
eliminated: curve 0 survives at full velocity and is even declared the
winner of the round. -/
theorem simultaneous_collisions_only_highest_bit_applied :
    collision_bits tc1.env bounds1 tc1.delta st1.curves = 3 ∧
    ((tick_running tc1 bounds1 st1).1.curves.map fun c => c.alive) = [true, false] ∧
    ((tick_running tc1 bounds1 st1).1.curves.map fun c => c.velocity) = [60, 0] ∧
    (tick_running tc1 bounds1 st1).2 = some 0 := by
  decide

/-- Any-collision over the enumerated, index-limited self-trail scan equals
any-collision over the plain prefix of the trail. -/
theorem enumFrom_takeWhile_any (f : Line → Bool) :
    ∀ (l : List Line) (k n : Nat),
      ((List.enumFrom k l).takeWhile fun p => decide (p.1 < k + n)).any (fun p => f p.2)
        = (l.take n).any f := by
  intro l
  induction l with
  | nil => intro k n; simp [List.enumFrom]
  | cons a l ih =>
      intro k n
      cases n with
      | zero =>
          simp [List.enumFrom, List.takeWhile_cons]
      | succ n =>
          have hk : k < k + (n + 1) := by omega
          have harith : k + (n + 1) = (k + 1) + n := by omega
          simp only [List.enumFrom, List.takeWhile_cons, decide_eq_true_eq, if_pos hk,
            List.any_cons, List.take_succ_cons]
          rw [harith, ih (k + 1) n]

unseal Rat.add Rat.mul Rat.sub Rat.inv in
/-- C3 (amended): when a curve is tested against its own trail, exactly the
most recent `K` segments are excluded from the scan — a matching segment
older than that window is scanned and produces a collision — where
`K = 15 * max(⌊r⌋ - 1, 0)` and `r = girth.as_f32()` is the girth's bounding
radius (not its level in the six-level ordering), giving
`K = 0, 0, 15, 45, 75, 105` for the six levels. -/
theorem self_collision_window_exact (bbox : List Point2) (c : Curve) :
    trailHit bbox true c =
      (c.lines.take (c.lines.length - 15 * (Int.toNat ⌊c.girth.as_f32⌋ - 1))).any
        (check_bbox_colision bbox) ∧
    15 * (Int.toNat ⌊c.girth.as_f32⌋ - 1) =
      (match c.girth with
       | .Tiny => 0
       | .Small => 0
       | .Normal => 15
       | .Large => 45
       | .Larger => 75
       | .Chungus => 105) := by
  constructor
  · have h := enumFrom_takeWhile_any (check_bbox_colision bbox) c.lines 0
      (c.lines.length - 15 * (Int.toNat ⌊c.girth.as_f32⌋ - 1))
    simp only [Nat.zero_add] at h
    simpa [trailHit, List.enum] using h
  · cases c.girth <;> decide

unseal Rat.add Rat.mul Rat.sub Rat.inv in
/-- C3 counterexample: a `Larger` curve with a 61-segment trail, every
segment of which matches its own query box.  Under the claim's window
`K = 15 * max(L - 1, 0)` with `L` the six-level position of `Larger` (45
for `L = 4`, or 60 for a one-based `L = 5`), the oldest segments would be
scanned and produce a collision; the code excludes
`15 * (⌊6.0⌋ - 1) = 75 ≥ 61` segments, scans nothing, and reports none. -/
theorem self_collision_window_mismatch :
    c3.girth = Girth.Larger ∧
    c3.lines.length = 61 ∧
    c3.lines.all (fun l => check_bbox_colision bbox3 l) = true ∧
    61 - 15 * (Girth.idx Girth.Larger - 1) > 0 ∧
    61 - 15 * Girth.idx Girth.Larger > 0 ∧
    trailHit bbox3 true c3 = false ∧
    curve_collides env0 bounds9 [c3] 1 0 c3 = false := by
  decide

/-- The pickup-application loop pushes exactly one timeout per detected
`(curve, pickup)` record, in order. -/
theorem apply_powermods_power_timeouts (now : ℚ) :
    ∀ (ds : List (Nat × Nat × PowerModifier)) (st : GameState),
      (apply_powermods now ds st).power_timeouts =
        st.power_timeouts ++ ds.map (fun d => ⟨d.1, now, d.2.2⟩) := by
  intro ds
  induction ds with
  | nil => intro st; simp [apply_powermods]
  | cons d rest ih =>
      intro st
      simp [apply_powermods, ih, List.append_assoc]

/-- The pickup-application loop removes exactly the detected pickup ids from
the spawned map. -/
theorem apply_powermods_powermods (now : ℚ) :
    ∀ (ds : List (Nat × Nat × PowerModifier)) (st : GameState),
      (apply_powermods now ds st).powermods =
        st.powermods.filter (fun e => ds.all fun d => e.1 != d.2.1) := by
  intro ds
  induction ds with
  | nil =>
      intro st
      simp [apply_powermods]
  | cons d rest ih =>
      intro st
      simp only [apply_powermods, ih, List.filter_filter, List.all_cons]
      congr 1
      funext e
      rw [Bool.and_comm]

/-- C9 (amended): during one `Running` tick, exactly one power-up timeout is
created per detected `(curve, pickup)` record — appended in detection order
after the surviving earlier timeouts — and every detected pickup id is
removed from the spawned set in the same tick.  (A pickup simultaneously
touched by several curves yields one record, one application and one
timeout per touching curve; see the accompanying counterexample.) -/
theorem powermod_collection_per_pair (tc : TickCtx) (bounds : ArenaBounds) (st : GameState) :
    (tick_running tc bounds st).1.power_timeouts =
      (expire_timeouts tc.now tc.fuse st.curves st.power_timeouts).2 ++
        (detect_powermods tc.env tc.delta st.powermods st.curves).map
          (fun d => ⟨d.1, tc.now, d.2.2⟩) ∧
    (tick_running tc bounds st).1.powermods =
      st.powermods.filter (fun e =>
        (detect_powermods tc.env tc.delta st.powermods st.curves).all fun d => e.1 != d.2.1) := by
  unfold tick_running
  cases hcw : check_winner (apply_collisions
      (collision_bits tc.env bounds tc.delta st.curves)
      (apply_powermods tc.now (detect_powermods tc.env tc.delta st.powermods st.curves)
        { curves := (expire_timeouts tc.now tc.fuse st.curves st.power_timeouts).1,
          powermods := st.powermods,
          power_timeouts := (expire_timeouts tc.now tc.fuse st.curves st.power_timeouts).2 }).curves) with
  | none => simp [hcw, apply_powermods_power_timeouts, apply_powermods_powermods]
  | some w => simp [hcw, apply_powermods_power_timeouts, apply_powermods_powermods]

unseal Rat.add Rat.mul Rat.sub Rat.inv in
/-- C9 counterexample: two curves sit on the single spawned pickup in the
same tick; the pickup is collected by both curves (two detection records)
and two timeout entries are created for this one pickup, so a pickup is
neither collected by at most one curve nor limited to one timeout. -/
theorem one_pickup_two_curves_two_timeouts :
    st9.powermods.length = 1 ∧
    st9.power_timeouts = [] ∧
    (detect_powermods tc1.env tc1.delta st9.powermods st9.curves).length = 2 ∧
    ((tick_running tc1 bounds9 st9).1.power_timeouts.map fun t => t.curve) = [0, 1] ∧
    (tick_running tc1 bounds9 st9).1.powermods = [] := by
  decide

/-- No power-up kind changes the alive flag when applied. -/
theorem apply_alive (pm : PowerModifier) (now : ℚ) (c : Curve) :
    (pm.apply now c).alive = c.alive := by
  cases pm <;> simp only [PowerModifier.apply] <;> first
    | rfl
    | (split <;> rfl)

/-- No power-up kind changes the alive flag when reversed. -/
theorem remove_alive (pm : PowerModifier) (now fuse : ℚ) (c : Curve) :
    (pm.remove now fuse c).alive = c.alive := by
  cases pm <;> simp only [PowerModifier.remove] <;> first
    | rfl
    | (split <;> rfl)

/-- An in-place update by a function preserving a projection preserves the
projected list. -/
theorem list_update_map {β : Type} (g : Curve → β) (f : Curve → Curve)
    (hf : ∀ c, g (f c) = g c) :
    ∀ (n : Nat) (l : List Curve), (list_update f n l).map g = l.map g := by
  intro n l
  induction l generalizing n with
  | nil => cases n <;> rfl
  | cons c rest ih =>
      cases n with
      | zero => simp [list_update, hf]
      | succ m => simp [list_update, ih]

/-- Timeout expiry preserves any projection preserved by every `remove`. -/
theorem expire_curves_map {β : Type} (g : Curve → β)
    (hg : ∀ (pm : PowerModifier) (now fuse : ℚ) (c : Curve), g (pm.remove now fuse c) = g c)
    (now : ℚ) (fuse : Nat → ℚ) :
    ∀ (ts : List PowerTimeout) (curves : List Curve),
      ((expire_timeouts now fuse curves ts).1).map g = curves.map g := by
  intro ts
  induction ts with
  | nil => intro curves; rfl
  | cons t rest ih =>
      intro curves
      simp only [expire_timeouts]
      split
      · rw [ih, list_update_map g _ (hg t.ty now (fuse t.curve))]
      · simpa using ih curves

/-- Pickup application preserves any projection preserved by every `apply`. -/
theorem apply_powermods_curves_map {β : Type} (g : Curve → β)
    (hg : ∀ (pm : PowerModifier) (now : ℚ) (c : Curve), g (pm.apply now c) = g c)
    (now : ℚ) :
    ∀ (ds : List (Nat × Nat × PowerModifier)) (st : GameState),
      ((apply_powermods now ds st).curves).map g = st.curves.map g := by
  intro ds
  induction ds with
  | nil => intro st; rfl
  | cons d rest ih =>
      intro st
      simp only [apply_powermods]
      rw [ih]
      exact list_update_map g _ (hg d.2.2 now) d.1 st.curves

/-- Rotation does not change the alive flag. -/
theorem rotate_alive (c : Curve) (cw ccw : Bool) : (c.rotate cw ccw).alive = c.alive := by
  simp only [Curve.rotate]
  split <;> split <;> rfl

/-- Trail processing does not change the alive flag. -/
theorem tick_trail_alive (c : Curve) (env : Env) (now fuse delta : ℚ) :
    (c.tick_trail env now fuse delta).alive = c.alive := by
  simp only [Curve.tick_trail]
  split <;> split <;> split <;> rfl

/-- The movement loop does not change any alive flag. -/
theorem movement_go_map_alive (tc : TickCtx) :
    ∀ (n : Nat) (cs : List Curve),
      ((movement_go tc n cs).map fun c => c.alive) = cs.map fun c => c.alive := by
  intro n cs
  induction cs generalizing n with
  | nil => rfl
  | cons c rest ih =>
      simp [movement_go, Curve.mv, tick_trail_alive, rotate_alive, ih]

/-- Pointwise description of the collision-application loop. -/
theorem apply_collisions_go_get (b : Nat) :
    ∀ (cs : List Curve) (n i : Nat),
      (apply_collisions_go b n cs).get? i =
        (cs.get? i).map (fun c =>
          if c.alive = false then c
          else if b >>> (n + i) = 1 then { c with velocity := 0, alive := false }
          else c) := by
  intro cs
  induction cs with
  | nil => intro n i; rfl
  | cons c rest ih =>
      intro n i
      cases i with
      | zero => simp [apply_collisions_go]
      | succ j =>
          simp only [apply_collisions_go, List.get?_cons_succ]
          rw [ih (n + 1) j]
          have h : n + 1 + j = n + (j + 1) := by omega
          rw [h]

/-- A set bit of the accumulated collision bit-set comes from a curve at the
corresponding index for which the scan reported a collision. -/
theorem collision_bits_go_testBit_of (env : Env) (bounds : ArenaBounds)
    (all : List Curve) (delta : ℚ) :
    ∀ (cs : List Curve) (n k : Nat),
      (collision_bits_go env bounds all delta n cs).testBit k = true →
      ∃ j c, cs.get? j = some c ∧ k = n + j ∧
        curve_collides env bounds all delta k c = true := by
  intro cs
  induction cs with
  | nil =>
      intro n k h
      simp [collision_bits_go, Nat.zero_testBit] at h
  | cons c rest ih =>
      intro n k h
      simp only [collision_bits_go, Nat.testBit_or] at h
      rcases (Bool.or_eq_true _ _).mp h with h1 | h2
      · by_cases hc : curve_collides env bounds all delta n c = true
        · rw [if_pos hc, Nat.testBit_shiftLeft] at h1
          have hk : n ≤ k ∧ Nat.testBit 1 (k - n) = true := by simpa using h1
          have hk0 : k - n = 0 := by
            have := hk.2
            rw [show (1:Nat) = 2 ^ 0 from rfl, Nat.testBit_two_pow] at this
            simpa using (decide_eq_true_eq.mp this).symm
          have hkn : k = n := by omega
          subst hkn
          exact ⟨0, c, rfl, by omega, hc⟩
        · rw [if_neg hc] at h1
          simp [Nat.zero_testBit] at h1
      · obtain ⟨j, c', hget, hk, hcol⟩ := ih (n + 1) k h2
        exact ⟨j + 1, c', by simpa using hget, by omega, hcol⟩

/-- C4: a curve whose trail is inactive when the collision scan reaches it
is not eliminated that tick by any collision check — neither the border
check nor any trail check — because the whole per-curve collision scan is
gated on `trail_active`, so its bit stays unset and the application loop
leaves it alive. -/
theorem trail_inactive_curve_not_eliminated (tc : TickCtx) (bounds : ArenaBounds)
    (st : GameState) (i : Nat) (c : Curve)
    (hc : st.curves.get? i = some c) (hta : c.trail_active = false)
    (ha : c.alive = true) :
    (((tick_running tc bounds st).1.curves.get? i).map fun c => c.alive) = some true := by
  have hbit : (collision_bits tc.env bounds tc.delta st.curves).testBit i = false := by
    by_contra hb
    have hb' : (collision_bits tc.env bounds tc.delta st.curves).testBit i = true := by
      simpa using hb
    obtain ⟨j, c', hget, hk, hcol⟩ :=
      collision_bits_go_testBit_of tc.env bounds st.curves tc.delta st.curves 0 i hb'
    have hj : j = i := by omega
    subst hj
    rw [hc] at hget
    have hcc : c' = c := by injection hget with h; exact h.symm
    rw [hcc] at hcol
    simp [curve_collides, hta] at hcol
  have hsh : ¬(collision_bits tc.env bounds tc.delta st.curves >>> i = 1) := by
    intro h
    rw [Nat.testBit_to_div_mod, ← Nat.shiftRight_eq_div_pow, h] at hbit
    simp at hbit
  -- alive is untouched by expiry and pickup application
  have hmap1 : ((apply_powermods tc.now
        (detect_powermods tc.env tc.delta st.powermods st.curves)
        { curves := (expire_timeouts tc.now tc.fuse st.curves st.power_timeouts).1,
          powermods := st.powermods,
          power_timeouts := (expire_timeouts tc.now tc.fuse st.curves st.power_timeouts).2 }).curves).map
        (fun c => c.alive) = st.curves.map (fun c => c.alive) := by
    rw [apply_powermods_curves_map (fun c => c.alive) apply_alive]
    exact expire_curves_map (fun c => c.alive) remove_alive tc.now tc.fuse
      st.power_timeouts st.curves
  set curvesP := (apply_powermods tc.now
      (detect_powermods tc.env tc.delta st.powermods st.curves)
      { curves := (expire_timeouts tc.now tc.fuse st.curves st.power_timeouts).1,
        powermods := st.powermods,
        power_timeouts := (expire_timeouts tc.now tc.fuse st.curves st.power_timeouts).2 }).curves
    with hcurvesP
  have hgetP : (curvesP.get? i).map (fun c => c.alive) = some true := by
    rw [← List.get?_map, hmap1, List.get?_map, hc]
    simpa using ha
  obtain ⟨c2, hc2, hc2alive⟩ : ∃ c2, curvesP.get? i = some c2 ∧ c2.alive = true := by
    rcases h : curvesP.get? i with _ | c2
    · rw [h] at hgetP; simp at hgetP
    · rw [h] at hgetP
      exact ⟨c2, rfl, by simpa using hgetP⟩
  have hcoll : ((apply_collisions (collision_bits tc.env bounds tc.delta st.curves)
      curvesP).get? i).map (fun c => c.alive) = some true := by
    unfold apply_collisions
    rw [apply_collisions_go_get, hc2]
    simp [hc2alive, hsh]
  unfold tick_running
  cases hcw : check_winner (apply_collisions
      (collision_bits tc.env bounds tc.delta st.curves) curvesP) with
  | some w =>
      simpa [hcw, ← hcurvesP] using hcoll
  | none =>
      simp only [← hcurvesP, hcw]
      rw [← List.get?_map]
      rw [movement_go_map_alive tc 0]
      rw [List.get?_map]
      exact hcoll

/-- C4 witness: the out-of-bounds invulnerable curve survives its tick. -/
theorem trail_inactive_curve_not_eliminated_witness :
    cI.trail_active = false ∧ cI.alive = true ∧
    (((tick_running tc1 bounds1 stI).1.curves.get? 0).map fun c => c.alive) = some true :=
  ⟨rfl, rfl, trail_inactive_curve_not_eliminated tc1 bounds1 stI 0 cI rfl rfl rfl⟩

/-- Rotation does not change position, velocity or the alive flag. -/
theorem rotate_pva (c : Curve) (cw ccw : Bool) : pva (c.rotate cw ccw) = pva c := by
  simp only [Curve.rotate]
  split <;> split <;> rfl

/-- Trail processing does not change position, velocity or the alive flag. -/
theorem tick_trail_pva (c : Curve) (env : Env) (now fuse delta : ℚ) :
    pva (c.tick_trail env now fuse delta) = pva c := by
  simp only [Curve.tick_trail]
  split <;> split <;> split <;> rfl

/-- A stopped curve does not move. -/
theorem mv_position_of_velocity_zero (c : Curve) (env : Env) (delta : ℚ)
    (h : c.velocity = 0) : (c.mv env delta).position = c.position := by
  cases hp : c.position
  simp [Curve.mv, h, hp]

/-- `Chungus.apply` only touches girth. -/
theorem chungus_apply_pva (now : ℚ) (c : Curve) :
    pva (PowerModifier.Chungus.apply now c) = pva c := by
  simp only [PowerModifier.apply]
  split <;> rfl

/-- `Chungus.remove` only touches girth. -/
theorem chungus_remove_pva (now fuse : ℚ) (c : Curve) :
    pva (PowerModifier.Chungus.remove now fuse c) = pva c := rfl

/-- Timeout expiry keeps positions, velocities and alive flags when every
pending timeout carries the `Chungus` kind. -/
theorem expire_curves_map_chungus (now : ℚ) (fuse : Nat → ℚ) :
    ∀ (ts : List PowerTimeout) (curves : List Curve),
      (∀ t ∈ ts, t.ty = PowerModifier.Chungus) →
      ((expire_timeouts now fuse curves ts).1).map pva = curves.map pva := by
  intro ts
  induction ts with
  | nil => intro curves _; rfl
  | cons t rest ih =>
      intro curves hall
      have ht : t.ty = PowerModifier.Chungus := hall t (List.mem_cons_self t rest)
      have hrest : ∀ x ∈ rest, x.ty = PowerModifier.Chungus := fun x hx =>
        hall x (List.mem_cons_of_mem t hx)
      simp only [expire_timeouts]
      split
      · rw [ih _ hrest, list_update_map pva _ (by rw [ht]; exact chungus_remove_pva now (fuse t.curve))]
      · simpa using ih curves hrest

/-- Every kept timeout after expiry was already pending before. -/
theorem expire_kept_subset (now : ℚ) (fuse : Nat → ℚ) :
    ∀ (ts : List PowerTimeout) (curves : List Curve) (t : PowerTimeout),
      t ∈ (expire_timeouts now fuse curves ts).2 → t ∈ ts := by
  intro ts
  induction ts with
  | nil => intro curves t h; simpa [expire_timeouts] using h
  | cons t0 rest ih =>
      intro curves t h
      simp only [expire_timeouts] at h
      by_cases hexp : now - t0.started ≥ POWERMOD_DURATION
      · rw [if_pos hexp] at h
        exact List.mem_cons_of_mem t0 (ih _ t h)
      · rw [if_neg hexp] at h
        simp only [List.mem_cons] at h
        rcases h with h | h
        · exact h ▸ List.mem_cons_self t0 rest
        · exact List.mem_cons_of_mem t0 (ih _ t h)

/-- Every detected pickup record carries the kind of a spawned pickup. -/
theorem detect_powermods_go_ty (env : Env) (delta : ℚ)
    (pms : List (Nat × PowerMod)) :
    ∀ (n : Nat) (cs : List Curve) (d : Nat × Nat × PowerModifier),
      d ∈ detect_powermods_go env delta pms n cs → ∃ e ∈ pms, d.2.2 = e.2.ty := by
  intro n cs
  induction cs generalizing n with
  | nil => intro d h; simp [detect_powermods_go] at h
  | cons c rest ih =>
      intro d h
      simp only [detect_powermods_go, List.mem_append] at h
      rcases h with h | h
      · simp only [List.mem_map] at h
        obtain ⟨e, he, hde⟩ := h
        exact ⟨e, List.mem_of_mem_filter he, by rw [← hde]⟩
      · exact ih (n + 1) d h

/-- Pickup application keeps positions, velocities and alive flags when
every detected record carries the `Chungus` kind. -/
theorem apply_powermods_curves_map_chungus (now : ℚ) :
    ∀ (ds : List (Nat × Nat × PowerModifier)) (st : GameState),
      (∀ d ∈ ds, d.2.2 = PowerModifier.Chungus) →
      ((apply_powermods now ds st).curves).map pva = st.curves.map pva := by
  intro ds
  induction ds with
  | nil => intro st _; rfl
  | cons d rest ih =>
      intro st hall
      have hd : d.2.2 = PowerModifier.Chungus := hall d (List.mem_cons_self d rest)
      have hrest : ∀ x ∈ rest, x.2.2 = PowerModifier.Chungus := fun x hx =>
        hall x (List.mem_cons_of_mem d hx)
      simp only [apply_powermods]
      rw [ih _ hrest]
      exact list_update_map pva _ (by rw [hd]; exact chungus_apply_pva now) d.1 st.curves

/-- Pointwise description of the movement loop. -/
theorem movement_go_get (tc : TickCtx) :
    ∀ (cs : List Curve) (n i : Nat),
      (movement_go tc n cs).get? i =
        (cs.get? i).map (fun c =>
          ((c.rotate (tc.cw (n + i)) (tc.ccw (n + i))).tick_trail tc.env tc.now
            (tc.fuse (n + i)) tc.delta).mv tc.env tc.delta) := by
  intro cs
  induction cs with
  | nil => intro n i; rfl
  | cons c rest ih =>
      intro n i
      cases i with
      | zero => simp [movement_go]
      | succ j =>
          simp only [movement_go, List.get?_cons_succ]
          rw [ih (n + 1) j]
          have h : n + 1 + j = n + (j + 1) := by omega
          rw [h]

/-- One `Running` tick preserves the dead-curve premise: the eliminated
curve stays dead, stopped and in place, and all pickups and timeouts keep
the `Chungus` kind. -/
theorem tick_preserves_good (tc : TickCtx) (bounds : ArenaBounds) (k : Nat) (p : Point2)
    (st : GameState) (h : good_state k p st) :
    good_state k p (tick_running tc bounds st).1 := by
  obtain ⟨hcurve, hpm, hto⟩ := h
  have hdet : ∀ d ∈ detect_powermods tc.env tc.delta st.powermods st.curves,
      d.2.2 = PowerModifier.Chungus := by
    intro d hd
    obtain ⟨e, he, hde⟩ :=
      detect_powermods_go_ty tc.env tc.delta st.powermods 0 st.curves d hd
    rw [hde]
    exact hpm e he
  have hm : ((apply_powermods tc.now
      (detect_powermods tc.env tc.delta st.powermods st.curves)
      { curves := (expire_timeouts tc.now tc.fuse st.curves st.power_timeouts).1,
        powermods := st.powermods,
        power_timeouts := (expire_timeouts tc.now tc.fuse st.curves st.power_timeouts).2 }).curves).map pva
      = st.curves.map pva := by
    rw [apply_powermods_curves_map_chungus tc.now _ _ hdet]
    exact expire_curves_map_chungus tc.now tc.fuse st.power_timeouts st.curves hto
  set curvesP := (apply_powermods tc.now
      (detect_powermods tc.env tc.delta st.powermods st.curves)
      { curves := (expire_timeouts tc.now tc.fuse st.curves st.power_timeouts).1,
        powermods := st.powermods,
        power_timeouts := (expire_timeouts tc.now tc.fuse st.curves st.power_timeouts).2 }).curves
    with hcurvesP
  have hgetP : (curvesP.get? k).map pva = some (p, 0, false) := by
    rw [← List.get?_map, hm, List.get?_map]
    exact hcurve
  obtain ⟨c2, hc2, hc2p⟩ : ∃ c2, curvesP.get? k = some c2 ∧ pva c2 = (p, 0, false) := by
    rcases hx : curvesP.get? k with _ | c2
    · rw [hx] at hgetP; simp at hgetP
    · rw [hx] at hgetP
      exact ⟨c2, rfl, by simpa using hgetP⟩
  have hc2pos : c2.position = p := congrArg (fun t => t.1) hc2p
  have hc2vel : c2.velocity = 0 := congrArg (fun t => t.2.1) hc2p
  have hc2alive : c2.alive = false := congrArg (fun t => t.2.2) hc2p
  have hcoll : (apply_collisions (collision_bits tc.env bounds tc.delta st.curves)
      curvesP).get? k = some c2 := by
    unfold apply_collisions
    rw [apply_collisions_go_get, hc2]
    simp [hc2alive]
  have hpm2 : ∀ e ∈ st.powermods.filter (fun e =>
      (detect_powermods tc.env tc.delta st.powermods st.curves).all fun d => e.1 != d.2.1),
      e.2.ty = PowerModifier.Chungus := fun e he => hpm e (List.mem_of_mem_filter he)
  have hto2 : ∀ t ∈ (expire_timeouts tc.now tc.fuse st.curves st.power_timeouts).2 ++
      (detect_powermods tc.env tc.delta st.powermods st.curves).map
        (fun d => (⟨d.1, tc.now, d.2.2⟩ : PowerTimeout)),
      t.ty = PowerModifier.Chungus := by
    intro t ht
    rcases List.mem_append.mp ht with ht | ht
    · exact hto t (expire_kept_subset tc.now tc.fuse st.power_timeouts st.curves t ht)
    · obtain ⟨d, hd, hdt⟩ := List.mem_map.mp ht
      rw [← hdt]
      exact hdet d hd
  unfold tick_running
  cases hcw : check_winner (apply_collisions
      (collision_bits tc.env bounds tc.delta st.curves) curvesP) with
  | some w =>
      simp only [← hcurvesP, hcw]
      refine ⟨?_, ?_, ?_⟩
      · rw [hcoll]
        simpa using hc2p
      · simpa [apply_powermods_powermods] using hpm2
      · simpa [apply_powermods_power_timeouts] using hto2
  | none =>
      simp only [← hcurvesP, hcw]
      refine ⟨?_, ?_, ?_⟩
      · rw [movement_go_get, hcoll]
        have hx : pva ((c2.rotate (tc.cw (0 + k)) (tc.ccw (0 + k))).tick_trail tc.env
            tc.now (tc.fuse (0 + k)) tc.delta) = (p, 0, false) := by
          rw [tick_trail_pva, rotate_pva, hc2p]
        have hxvel : ((c2.rotate (tc.cw (0 + k)) (tc.ccw (0 + k))).tick_trail tc.env
            tc.now (tc.fuse (0 + k)) tc.delta).velocity = 0 :=
          congrArg (fun t => t.2.1) hx
        have hxpos : ((c2.rotate (tc.cw (0 + k)) (tc.ccw (0 + k))).tick_trail tc.env
            tc.now (tc.fuse (0 + k)) tc.delta).position = p :=
          congrArg (fun t => t.1) hx
        have hxalive : ((c2.rotate (tc.cw (0 + k)) (tc.ccw (0 + k))).tick_trail tc.env
            tc.now (tc.fuse (0 + k)) tc.delta).alive = false :=
          congrArg (fun t => t.2.2) hx
        simp only [Option.map_some']
        rw [show ∀ y : Curve, pva (y.mv tc.env tc.delta) =
            ((y.mv tc.env tc.delta).position, y.velocity, y.alive) from fun y => rfl]
        rw [mv_position_of_velocity_zero _ _ _ hxvel, hxpos, hxvel, hxalive]
      · simpa [apply_powermods_powermods] using hpm2
      · simpa [apply_powermods_power_timeouts] using hto2

/-- C10: once a curve is eliminated (alive set to false, velocity set to 0),
its position is unchanged by every subsequent `Running` tick of the round —
the movement update still runs for dead curves but adds `velocity * delta`
along the heading, which is zero — given the reachable-state premise that
all pickups and timeouts in flight carry the `Chungus` kind (the only kind
in the spawner's `POWERMODS` table), so no effect can change its velocity. -/
theorem dead_curve_position_fixed (bounds : ArenaBounds) (tcs : List TickCtx)
    (st : GameState) (k : Nat) (p : Point2) (h : good_state k p st) :
    ((tick_running_iter bounds tcs st).curves.get? k).map pva = some (p, 0, false) := by
  induction tcs generalizing st with
  | nil => exact h.1
  | cons tc rest ih =>
      exact ih ((tick_running tc bounds st).1) (tick_preserves_good tc bounds k p st h)

/-- C10 witness: the concrete dead curve stays at (5, 5), dead and stopped,
after a tick. -/
theorem dead_curve_position_fixed_witness :
    good_state 0 ⟨5, 5⟩ stD ∧
    ((tick_running_iter bounds9 [tc1] stD).curves.get? 0).map pva =
      some (⟨5, 5⟩, 0, false) :=
  ⟨⟨rfl, by simp [stD], by simp [stD]⟩,
   dead_curve_position_fixed bounds9 [tc1] stD 0 ⟨5, 5⟩ ⟨rfl, by simp [stD], by simp [stD]⟩⟩
